import Mathlib

/-!
Verification development for the TRPO implementation in
`sb3_contrib/trpo/trpo.py` (stable-baselines3-contrib fork).

The file shallow-embeds the pieces of the code that the specification
talks about: the actor-gradient extractor `_compute_actor_grad`
(lines 176-237), the Hessian-vector product `hessian_vector_product`
(lines 430-443), the step-size derivation and backtracking line search
inside `train` (lines 325-398), the advantage sub-sampling and
normalization (lines 257-291), the constructor validation
(lines 139-161), and the critic update loop (lines 400-414).

Machine floats are modelled two ways: exact arithmetic over `ℚ`/`ℝ`
where the claims are about formulas, and an explicit IEEE-style value
type `FVal` (finite / +inf / -inf / NaN over exact rationals) where a
claim is specifically about degenerate float behaviour.
-/

/-- Character-list prefix test, used to embed the Python substring test
`"value" in name` of `_compute_actor_grad` (trpo.py line 204). -/
def beginsWith : List Char → List Char → Bool
  | [], _ => true
  | _ :: _, [] => false
  | a :: as, b :: bs => a == b && beginsWith as bs

/-- Character-list substring test: Python `pat in text`. -/
def hasSubstring (pat : List Char) : List Char → Bool
  | [] => pat.isEmpty
  | b :: rest => beginsWith pat (b :: rest) || hasSubstring pat rest

/-- The character list of the literal `value`. -/
def valueChars : List Char := ['v', 'a', 'l', 'u', 'e']

/-- Embeds the Python test `"value" in name` (trpo.py line 204): a
parameter whose name contains `value` is skipped by the extractor. -/
def containsValueName (name : List Char) : Bool := hasSubstring valueChars name

/-- A named policy parameter as enumerated by
`self.policy.named_parameters()` (trpo.py line 200).  The tensor data
itself is irrelevant to the extractor's control flow; the name decides
the value-function skip and the shape is what gets recorded. -/
structure PolicyParam where
  name : List Char
  shape : List ℕ
deriving DecidableEq, Repr

/-- Result of `_compute_actor_grad` (trpo.py lines 176-237), in the
order the Python function returns them: actor parameter list, flattened
objective gradient, flattened KL gradient, shape list.  The extra field
`objGradCalls` instruments the embedding: it records exactly the
parameters for which the code computes the objective gradient
(the `th.autograd.grad(policy_objective, param, ...)` call at line 225),
so that "the objective gradient is never computed for a skipped
parameter" is a statable property of the model. -/
structure ActorGradResult where
  actorParams : List PolicyParam
  policyObjectiveGradients : List ℚ
  gradKl : List ℚ
  gradShape : List (List ℕ)
  objGradCalls : List PolicyParam
deriving DecidableEq, Repr

/-- Embeds `_compute_actor_grad` (trpo.py lines 176-237).
`kg p` models `th.autograd.grad(kl_div, param, ..., allow_unused=True)`
(line 209): `none` is a structurally absent gradient (the parameter has
no path to the KL divergence; with `allow_unused=True` this is not an
error), `some g` is the gradient already flattened by `reshape(-1)`.
`og p` models `th.autograd.grad(policy_objective, param, ...)`
(line 225), flattened.  The loop: skip parameters whose name contains
`value` (line 204); skip parameters with absent KL gradient (line 220);
otherwise append the shape, the KL gradient, the objective gradient and
the parameter itself, in iteration order; the flattened vectors are the
concatenations (`th.cat`, lines 235-236).  The model is a total
function: no branch raises. -/
def computeActorGrad (kg : PolicyParam → Option (List ℚ)) (og : PolicyParam → List ℚ) :
    List PolicyParam → ActorGradResult
  | [] => ⟨[], [], [], [], []⟩
  | p :: ps =>
    let r := computeActorGrad kg og ps
    if containsValueName p.name then r
    else
      match kg p with
      | none => r
      | some g =>
        ⟨p :: r.actorParams, og p ++ r.policyObjectiveGradients, g ++ r.gradKl,
          p.shape :: r.gradShape, p :: r.objGradCalls⟩

/-- Structure lemma for `computeActorGrad`: the four outputs are all
generated from the same filtered, ordered actor list, value-named
parameters never enter it, and parameters inside it never have an
absent KL gradient. -/
theorem computeActorGrad_struct (kg : PolicyParam → Option (List ℚ))
    (og : PolicyParam → List ℚ) (params : List PolicyParam) :
    (∀ p ∈ (computeActorGrad kg og params).actorParams, containsValueName p.name = false) ∧
    (∀ p ∈ (computeActorGrad kg og params).actorParams, kg p ≠ none) ∧
    (computeActorGrad kg og params).gradShape
      = (computeActorGrad kg og params).actorParams.map PolicyParam.shape ∧
    (computeActorGrad kg og params).gradKl
      = ((computeActorGrad kg og params).actorParams.map (fun p => (kg p).getD [])).flatten ∧
    (computeActorGrad kg og params).policyObjectiveGradients
      = ((computeActorGrad kg og params).actorParams.map og).flatten ∧
    (computeActorGrad kg og params).objGradCalls
      = (computeActorGrad kg og params).actorParams := by
  induction params with
  | nil => simp [computeActorGrad]
  | cons p ps ih =>
    obtain ⟨h1, h2, h3, h4, h5, h6⟩ := ih
    by_cases hv : containsValueName p.name
    · simpa [computeActorGrad, hv] using ⟨h1, h2, h3, h4, h5, h6⟩
    · cases hkg : kg p with
      | none => simpa [computeActorGrad, hv, hkg] using ⟨h1, h2, h3, h4, h5, h6⟩
      | some g =>
        have heq : computeActorGrad kg og (p :: ps) =
            ⟨p :: (computeActorGrad kg og ps).actorParams,
              og p ++ (computeActorGrad kg og ps).policyObjectiveGradients,
              g ++ (computeActorGrad kg og ps).gradKl,
              p.shape :: (computeActorGrad kg og ps).gradShape,
              p :: (computeActorGrad kg og ps).objGradCalls⟩ := by
          simp [computeActorGrad, hv, hkg]
        rw [heq]
        refine ⟨?_, ?_, ?_, ?_, ?_, ?_⟩
        · intro q hq
          rcases List.mem_cons.mp hq with hq | hq
          · simpa [hq] using hv
          · exact h1 q hq
        · intro q hq
          rcases List.mem_cons.mp hq with hq | hq
          · simp [hq, hkg]
          · exact h2 q hq
        · simpa using h3
        · simpa [hkg] using h4
        · simpa using h5
        · simpa using h6

/-- C6: the actor parameter list returned by the gradient extractor
never contains a value-named parameter, and the four outputs are
aligned: the shape list is exactly the (ordered) map of the actor
parameters' shapes — so its length equals the number of actor
parameters — and each flattened gradient is exactly the ordered
concatenation of one contiguous segment per actor parameter, so the
number of segments of each flattened vector also equals the number of
actor parameters, with the same parameter order throughout. -/
theorem trpo_c6_actor_grad_alignment (kg : PolicyParam → Option (List ℚ))
    (og : PolicyParam → List ℚ) (params : List PolicyParam) :
    (∀ p ∈ (computeActorGrad kg og params).actorParams, containsValueName p.name = false) ∧
    (computeActorGrad kg og params).gradShape
      = (computeActorGrad kg og params).actorParams.map PolicyParam.shape ∧
    (computeActorGrad kg og params).gradShape.length
      = (computeActorGrad kg og params).actorParams.length ∧
    (computeActorGrad kg og params).gradKl
      = ((computeActorGrad kg og params).actorParams.map (fun p => (kg p).getD [])).flatten ∧
    ((computeActorGrad kg og params).actorParams.map (fun p => (kg p).getD [])).length
      = (computeActorGrad kg og params).actorParams.length ∧
    (computeActorGrad kg og params).policyObjectiveGradients
      = ((computeActorGrad kg og params).actorParams.map og).flatten ∧
    ((computeActorGrad kg og params).actorParams.map og).length
      = (computeActorGrad kg og params).actorParams.length := by
  obtain ⟨h1, _, h3, h4, h5, _⟩ := computeActorGrad_struct kg og params
  exact ⟨h1, h3, by simp [h3], h4, by simp, h5, by simp⟩

/-- Exclusion lemma: a parameter with structurally absent KL gradient is
in neither the actor list nor the objective-gradient call list. -/
theorem computeActorGrad_excluded (kg : PolicyParam → Option (List ℚ))
    (og : PolicyParam → List ℚ) (params : List PolicyParam) (p : PolicyParam)
    (hn : kg p = none) :
    p ∉ (computeActorGrad kg og params).actorParams ∧
    p ∉ (computeActorGrad kg og params).objGradCalls := by
  induction params with
  | nil => simp [computeActorGrad]
  | cons q qs ih =>
    by_cases hv : containsValueName q.name
    · simpa [computeActorGrad, hv] using ih
    · cases hkg : kg q with
      | none => simpa [computeActorGrad, hv, hkg] using ih
      | some g =>
        have hqp : q ≠ p := by
          intro h
          rw [h, hn] at hkg
          exact Option.noConfusion hkg
        constructor
        · simp only [computeActorGrad, hv, if_false, hkg, Bool.false_eq_true,
            List.mem_cons]
          rintro (h | h)
          · exact hqp h.symm
          · exact ih.1 h
        · simp only [computeActorGrad, hv, if_false, hkg, Bool.false_eq_true,
            List.mem_cons]
          rintro (h | h)
          · exact hqp h.symm
          · exact ih.2 h

/-- C7: a non-value-named parameter whose KL gradient is structurally
absent is silently skipped (the model is a total function, mirroring
`allow_unused=True` at line 214 which makes the absent gradient `None`
rather than an error): it is not in the actor parameter list, its
objective gradient is never computed (it is not in the instrumented
call list), and the shape list and both flattened gradients are built
exclusively from the actor parameter list it does not belong to. -/
theorem trpo_c7_absent_grad_skipped (kg : PolicyParam → Option (List ℚ))
    (og : PolicyParam → List ℚ) (params : List PolicyParam) (p : PolicyParam)
    (hmem : p ∈ params) (hv : containsValueName p.name = false)
    (hn : kg p = none) :
    p ∉ (computeActorGrad kg og params).actorParams ∧
    p ∉ (computeActorGrad kg og params).objGradCalls ∧
    (computeActorGrad kg og params).gradShape
      = (computeActorGrad kg og params).actorParams.map PolicyParam.shape ∧
    (computeActorGrad kg og params).gradKl
      = ((computeActorGrad kg og params).actorParams.map (fun q => (kg q).getD [])).flatten ∧
    (computeActorGrad kg og params).policyObjectiveGradients
      = ((computeActorGrad kg og params).actorParams.map og).flatten := by
  obtain ⟨hex1, hex2⟩ := computeActorGrad_excluded kg og params p hn
  obtain ⟨_, _, h3, h4, h5, _⟩ := computeActorGrad_struct kg og params
  exact ⟨hex1, hex2, h3, h4, h5⟩

/-- Witness for C7 at a concrete input: one non-value-named parameter
with absent KL gradient and one value-named parameter. -/
theorem trpo_c7_witness :
    let pa : PolicyParam := ⟨['p', 'i'], [2]⟩
    let pv : PolicyParam := ⟨valueChars, [3]⟩
    let kg : PolicyParam → Option (List ℚ) := fun _ => none
    let og : PolicyParam → List ℚ := fun _ => []
    pa ∉ (computeActorGrad kg og [pa, pv]).actorParams ∧
    pa ∉ (computeActorGrad kg og [pa, pv]).objGradCalls ∧
    (computeActorGrad kg og [pa, pv]).gradShape
      = (computeActorGrad kg og [pa, pv]).actorParams.map PolicyParam.shape ∧
    (computeActorGrad kg og [pa, pv]).gradKl
      = ((computeActorGrad kg og [pa, pv]).actorParams.map (fun q =>
          ((fun _ => (none : Option (List ℚ))) q).getD [])).flatten ∧
    (computeActorGrad kg og [pa, pv]).policyObjectiveGradients
      = ((computeActorGrad kg og [pa, pv]).actorParams.map (fun _ => ([] : List ℚ))).flatten := by
  exact trpo_c7_absent_grad_skipped (fun _ => none) (fun _ => [])
    [⟨['p', 'i'], [2]⟩, ⟨valueChars, [3]⟩] ⟨['p', 'i'], [2]⟩
    (by decide) (by decide) rfl

/-- Boolean strict-less-than, for embedding Python float comparisons in
the acceptance test (trpo.py line 378) over an exact ordered field. -/
def decLt {α : Type} [LT α] [∀ a b : α, Decidable (a < b)] (a b : α) : Bool :=
  decide (a < b)

/-- Result of the backtracking line search together with the statistics
the surrounding `train` code records for the iteration (trpo.py lines
336-398): the final actor parameters (one flat data list per tensor),
the success flag appended to `line_search_results` (line 386), and the
objective / KL-divergence values appended to `policy_objective_values`
and `kl_divergences` (lines 394-398). -/
structure LSResult (α : Type) where
  params : List (List α)
  success : Bool
  reportedObjective : α
  reportedKl : α
deriving DecidableEq, Repr

/-- Embeds the per-tensor candidate-step application (trpo.py lines
346-358): walking the zipped `(actor_params, original_actor_params,
grad_shape)` lists, each tensor is assigned
`original + coeff * step_size * direction[start : start + numel]`
where `numel` is the tensor's element count and `start` accumulates.
Tensors are represented by their flat data, so `.view(shape)` is the
identity on the data; `scale` stands for the already-multiplied
`coeff * step_size` factor and is applied exactly as in the source
(`scale * d` for each direction entry `d`). -/
def applyStepTensors {α : Type} [Add α] [Mul α] (scale : α) :
    List α → List (List α) → List (List α)
  | _, [] => []
  | dir, t :: ts =>
    (List.zipWith (fun o d => o + scale * d) t (dir.take t.length))
      :: applyStepTensors scale (dir.drop t.length) ts

/-- The acceptance test of one line-search trial (trpo.py line 378):
`(kl_div < self.target_kl) and (new_policy_objective > policy_objective)`,
with `policy_objective` the fixed pre-search objective.  Python `a > b`
on floats is exactly `b < a`, also on NaN, so one strict-less-than
primitive `ltB` is used for both comparisons. -/
def lsAcceptB {α : Type} (ltB : α → α → Bool) (evalKL evalObj : List (List α) → α)
    (targetKl preObj : α) (trialP : List (List α)) : Bool :=
  ltB (evalKL trialP) targetKl && ltB preObj (evalObj trialP)

/-- Embeds the backtracking loop of `train` (trpo.py lines 341-398),
including the post-loop bookkeeping.  `coeff` is
`line_search_backtrack_coeff` (starts at `1.0`, multiplied by the
shrinking factor `c` after every failed trial, line 384); `fuel` is the
remaining number of allowed trials out of `line_search_max_iter`.  Each
trial assigns all candidate tensors from the original snapshot
(lines 349-358), recomputes the divergence and objective through the
supplied evaluators (lines 360-372), and accepts on the strict two-sided
test (line 378), breaking with the success flag set.  If the budget is
exhausted, every parameter is reassigned its snapshot value
(lines 391-392) and the pre-step objective and a divergence of `0.0`
are recorded (lines 394-395); on success the trial's objective and
divergence are recorded (lines 397-398).  The model is a total
function: no branch raises. -/
def lineSearchLoop {α : Type} [Add α] [Mul α] [Zero α] (ltB : α → α → Bool)
    (evalKL evalObj : List (List α) → α) (targetKl preObj : α)
    (orig : List (List α)) (dir : List α) (β c : α) :
    ℕ → α → LSResult α
  | 0, _ => ⟨orig, false, preObj, 0⟩
  | fuel + 1, coeff =>
    let trialP := applyStepTensors (coeff * β) dir orig
    if lsAcceptB ltB evalKL evalObj targetKl preObj trialP then
      ⟨trialP, true, evalObj trialP, evalKL trialP⟩
    else
      lineSearchLoop ltB evalKL evalObj targetKl preObj orig dir β c fuel (coeff * c)

/-- The full line search as `train` runs it: `line_search_max_iter`
trials starting from a backtracking coefficient of `1.0`
(trpo.py lines 337 and 345). -/
def lineSearch {α : Type} [Add α] [Mul α] [Zero α] [One α] (ltB : α → α → Bool)
    (evalKL evalObj : List (List α) → α) (targetKl preObj : α)
    (orig : List (List α)) (dir : List α) (β c : α) (maxIter : ℕ) : LSResult α :=
  lineSearchLoop ltB evalKL evalObj targetKl preObj orig dir β c maxIter 1

/-- If no trial can ever be accepted, the loop reverts: parameters are
the original snapshot, success is false, the pre-step objective and a
zero divergence are reported. -/
theorem lineSearchLoop_neverAccept {α : Type} [Add α] [Mul α] [Zero α]
    (ltB : α → α → Bool) (evalKL evalObj : List (List α) → α)
    (targetKl preObj : α) (orig : List (List α)) (dir : List α) (β c : α)
    (hno : ∀ P, lsAcceptB ltB evalKL evalObj targetKl preObj P = false) :
    ∀ (fuel : ℕ) (coeff : α),
      lineSearchLoop ltB evalKL evalObj targetKl preObj orig dir β c fuel coeff
        = ⟨orig, false, preObj, 0⟩ := by
  intro fuel
  induction fuel with
  | zero => intro coeff; rfl
  | succ n ih =>
    intro coeff
    rw [lineSearchLoop]
    simp only [hno, if_false, Bool.false_eq_true]
    exact ih (coeff * c)

/-- If every trial with coefficients `coeff * c ^ j`, `j < fuel`, is
rejected, the loop reverts. -/
theorem lineSearchLoop_allReject {α : Type} [Monoid α] [Add α] [Zero α]
    (ltB : α → α → Bool) (evalKL evalObj : List (List α) → α)
    (targetKl preObj : α) (orig : List (List α)) (dir : List α) (β c : α) :
    ∀ (fuel : ℕ) (coeff : α),
      (∀ j < fuel, lsAcceptB ltB evalKL evalObj targetKl preObj
          (applyStepTensors ((coeff * c ^ j) * β) dir orig) = false) →
      lineSearchLoop ltB evalKL evalObj targetKl preObj orig dir β c fuel coeff
        = ⟨orig, false, preObj, 0⟩ := by
  intro fuel
  induction fuel with
  | zero => intro coeff _; rfl
  | succ n ih =>
    intro coeff hrej
    rw [lineSearchLoop]
    have h0 : lsAcceptB ltB evalKL evalObj targetKl preObj
        (applyStepTensors (coeff * β) dir orig) = false := by
      have := hrej 0 (Nat.succ_pos n)
      simpa using this
    simp only [h0, if_false, Bool.false_eq_true]
    refine ih (coeff * c) ?_
    intro j hj
    have := hrej (j + 1) (Nat.succ_lt_succ hj)
    calc lsAcceptB ltB evalKL evalObj targetKl preObj
          (applyStepTensors ((coeff * c) * c ^ j * β) dir orig)
        = lsAcceptB ltB evalKL evalObj targetKl preObj
          (applyStepTensors ((coeff * c ^ (j + 1)) * β) dir orig) := by
          rw [mul_assoc coeff c (c ^ j), ← pow_succ' c j]
      _ = false := this

/-- If the trials with coefficients `coeff * c ^ j`, `j < i`, are all
rejected and the trial with coefficient `coeff * c ^ i` is accepted
(with `i` within the budget), the loop stops there: the parameters
remain at that trial's value and its objective and divergence are the
reported statistics. -/
theorem lineSearchLoop_reach {α : Type} [Monoid α] [Add α] [Zero α]
    (ltB : α → α → Bool) (evalKL evalObj : List (List α) → α)
    (targetKl preObj : α) (orig : List (List α)) (dir : List α) (β c : α) :
    ∀ (i fuel : ℕ) (coeff : α), i < fuel →
      (∀ j < i, lsAcceptB ltB evalKL evalObj targetKl preObj
          (applyStepTensors ((coeff * c ^ j) * β) dir orig) = false) →
      lsAcceptB ltB evalKL evalObj targetKl preObj
          (applyStepTensors ((coeff * c ^ i) * β) dir orig) = true →
      lineSearchLoop ltB evalKL evalObj targetKl preObj orig dir β c fuel coeff
        = ⟨applyStepTensors ((coeff * c ^ i) * β) dir orig, true,
            evalObj (applyStepTensors ((coeff * c ^ i) * β) dir orig),
            evalKL (applyStepTensors ((coeff * c ^ i) * β) dir orig)⟩ := by
  intro i
  induction i with
  | zero =>
    intro fuel coeff hfuel _ hacc
    obtain ⟨n, rfl⟩ := Nat.exists_eq_succ_of_ne_zero (Nat.pos_iff_ne_zero.mp hfuel)
    rw [lineSearchLoop]
    simp only [pow_zero, mul_one] at hacc ⊢
    simp [hacc]
  | succ i ih =>
    intro fuel coeff hfuel hrej hacc
    obtain ⟨n, rfl⟩ := Nat.exists_eq_succ_of_ne_zero
      (Nat.pos_iff_ne_zero.mp (Nat.lt_of_le_of_lt (Nat.zero_le _) hfuel))
    have h0 : lsAcceptB ltB evalKL evalObj targetKl preObj
        (applyStepTensors (coeff * β) dir orig) = false := by
      have := hrej 0 (Nat.succ_pos i)
      simpa using this
    rw [lineSearchLoop]
    simp only [h0, if_false, Bool.false_eq_true]
    have hstep : ∀ j : ℕ, (coeff * c) * c ^ j = coeff * c ^ (j + 1) := by
      intro j
      rw [mul_assoc coeff c (c ^ j), ← pow_succ' c j]
    have := ih n (coeff * c) (Nat.lt_of_succ_lt_succ hfuel)
      (fun j hj => by rw [hstep j]; exact hrej (j + 1) (Nat.succ_lt_succ hj))
      (by rw [hstep i]; exact hacc)
    simpa [hstep i] using this

/-- Flattening the per-tensor candidate step recovers the elementwise
flat formula `orig + scale * direction` when the total tensor size
matches the direction's length. -/
theorem applyStepTensors_flatten {α : Type} [Add α] [Mul α] (scale : α) :
    ∀ (orig : List (List α)) (dir : List α),
      (orig.map List.length).sum = dir.length →
      (applyStepTensors scale dir orig).flatten
        = List.zipWith (fun o d => o + scale * d) orig.flatten dir := by
  intro orig
  induction orig with
  | nil => intro dir h; simp [applyStepTensors]
  | cons t ts ih =>
    intro dir h
    simp only [List.map_cons, List.sum_cons, List.length_cons] at h
    have hlen : t.length ≤ dir.length := by omega
    have htake : (dir.take t.length).length = t.length := by
      simp [List.length_take, Nat.min_eq_left hlen]
    have hdrop : (ts.map List.length).sum = (dir.drop t.length).length := by
      simp [List.length_drop]; omega
    simp only [applyStepTensors, List.flatten_cons]
    rw [ih (dir.drop t.length) hdrop]
    have hsplit : dir = dir.take t.length ++ dir.drop t.length :=
      (List.take_append_drop t.length dir).symm
    calc List.zipWith (fun o d => o + scale * d) t (dir.take t.length)
          ++ List.zipWith (fun o d => o + scale * d) ts.flatten (dir.drop t.length)
        = List.zipWith (fun o d => o + scale * d) (t ++ ts.flatten)
            (dir.take t.length ++ dir.drop t.length) := by
          rw [List.zipWith_append _ _ _ _ _ htake.symm]
      _ = List.zipWith (fun o d => o + scale * d) (t ++ ts.flatten) dir := by
          rw [← hsplit]

/-- C3: for a backtracking trial `i` (reached because trials
`0 .. i-1` were rejected, with `i` within `line_search_max_iter`), the
candidate parameters are exactly the per-tensor application of
`theta_original + c ^ i * beta_max * x` via the recorded shape
segmentation — whose flattening is the elementwise formula — and the
trial is accepted if and only if the recomputed divergence is strictly
below `target_kl` and the recomputed objective is strictly above the
fixed pre-search objective `preObj` (never a previous trial's value,
which does not occur in the test at all); on acceptance the search
stops with the parameters left at the trial value and that trial's
objective and divergence reported. -/
theorem trpo_c3_backtracking_trials {α : Type} [LinearOrderedField α]
    [∀ a b : α, Decidable (a < b)]
    (evalKL evalObj : List (List α) → α) (targetKl preObj : α)
    (orig : List (List α)) (dir : List α) (β c : α) (maxIter i : ℕ)
    (hi : i < maxIter)
    (hflat : (orig.map List.length).sum = dir.length)
    (hrej : ∀ j < i, lsAcceptB decLt evalKL evalObj targetKl preObj
        (applyStepTensors ((c ^ j) * β) dir orig) = false)
    (hacc : lsAcceptB decLt evalKL evalObj targetKl preObj
        (applyStepTensors ((c ^ i) * β) dir orig) = true) :
    lineSearch decLt evalKL evalObj targetKl preObj orig dir β c maxIter
      = ⟨applyStepTensors ((c ^ i) * β) dir orig, true,
          evalObj (applyStepTensors ((c ^ i) * β) dir orig),
          evalKL (applyStepTensors ((c ^ i) * β) dir orig)⟩ ∧
    (applyStepTensors ((c ^ i) * β) dir orig).flatten
      = List.zipWith (fun o d => o + ((c ^ i) * β) * d) orig.flatten dir ∧
    (lsAcceptB decLt evalKL evalObj targetKl preObj
        (applyStepTensors ((c ^ i) * β) dir orig) = true
      ↔ (evalKL (applyStepTensors ((c ^ i) * β) dir orig) < targetKl
          ∧ preObj < evalObj (applyStepTensors ((c ^ i) * β) dir orig))) := by
  refine ⟨?_, applyStepTensors_flatten _ orig dir hflat, ?_⟩
  · have := lineSearchLoop_reach decLt evalKL evalObj targetKl preObj orig dir β c
      i maxIter 1 hi (by simpa using hrej) (by simpa using hacc)
    simpa [lineSearch] using this
  · simp [lsAcceptB, decLt, Bool.and_eq_true, decide_eq_true_iff]

/-- Witness for C3 at a concrete rational input where the first trial is
rejected and the second accepted. -/
theorem trpo_c3_witness :
    let evalKL : List (List ℚ) → ℚ := fun _ => 0
    let evalObj : List (List ℚ) → ℚ := fun P => -(P.flatten.sum)
    let orig : List (List ℚ) := [[0]]
    let dir : List ℚ := [1]
    lineSearch decLt evalKL evalObj 1 (-3/4) orig dir 1 (1/2) 10
      = ⟨applyStepTensors (((1/2 : ℚ) ^ 1) * 1) dir orig, true,
          evalObj (applyStepTensors (((1/2 : ℚ) ^ 1) * 1) dir orig),
          evalKL (applyStepTensors (((1/2 : ℚ) ^ 1) * 1) dir orig)⟩ ∧
    (applyStepTensors (((1/2 : ℚ) ^ 1) * 1) dir orig).flatten
      = List.zipWith (fun o d => o + (((1/2 : ℚ) ^ 1) * 1) * d) orig.flatten dir ∧
    (lsAcceptB decLt evalKL evalObj 1 (-3/4)
        (applyStepTensors (((1/2 : ℚ) ^ 1) * 1) dir orig) = true
      ↔ (evalKL (applyStepTensors (((1/2 : ℚ) ^ 1) * 1) dir orig) < 1
          ∧ -3/4 < evalObj (applyStepTensors (((1/2 : ℚ) ^ 1) * 1) dir orig))) := by
  exact trpo_c3_backtracking_trials (fun _ => 0) (fun P => -(P.flatten.sum))
    1 (-3/4) [[0]] [1] 1 (1/2) 10 1 (by decide) (by decide)
    (by
      intro j hj
      have hj0 : j = 0 := by omega
      subst hj0
      norm_num [lsAcceptB, decLt, applyStepTensors])
    (by norm_num [lsAcceptB, decLt, applyStepTensors])

/-- C4: if every trial within the iteration budget is rejected, the
line search ends with every actor parameter holding exactly its
pre-step snapshot value (the `orig` tensors themselves), the reported
objective is the pre-step objective, the reported divergence is exactly
`0`, and the success flag is `false`.  The model is a total function,
mirroring that the source raises no exception on this path
(trpo.py lines 388-395). -/
theorem trpo_c4_exhaustion_reverts {α : Type} [LinearOrderedField α]
    [∀ a b : α, Decidable (a < b)]
    (evalKL evalObj : List (List α) → α) (targetKl preObj : α)
    (orig : List (List α)) (dir : List α) (β c : α) (maxIter : ℕ)
    (hrej : ∀ j < maxIter, lsAcceptB decLt evalKL evalObj targetKl preObj
        (applyStepTensors ((c ^ j) * β) dir orig) = false) :
    lineSearch decLt evalKL evalObj targetKl preObj orig dir β c maxIter
      = ⟨orig, false, preObj, 0⟩ := by
  have := lineSearchLoop_allReject decLt evalKL evalObj targetKl preObj orig dir β c
    maxIter 1 (by simpa using hrej)
  simpa [lineSearch] using this

/-- Witness for C4 at a concrete rational input where no trial can be
accepted (the objective never improves on the pre-step objective). -/
theorem trpo_c4_witness :
    lineSearch decLt (fun _ => (0 : ℚ)) (fun _ => (0 : ℚ)) 1 0 [[5, 6], [7]] [1, 1, 1] 2 (1/2) 3
      = ⟨[[5, 6], [7]], false, 0, 0⟩ := by
  exact trpo_c4_exhaustion_reverts (fun _ => 0) (fun _ => 0) 1 0
    [[5, 6], [7]] [1, 1, 1] 2 (1/2) 3
    (by intro j hj; norm_num [lsAcceptB, decLt])

/-- IEEE-754-style value for modelling torch float edge semantics with
exact rational payloads: a finite value, the two infinities, or NaN. -/
inductive FVal where
  | fin : ℚ → FVal
  | inf : FVal
  | ninf : FVal
  | nan : FVal
deriving DecidableEq, Repr

/-- IEEE-style addition on `FVal` (NaN propagates; opposite infinities
give NaN). -/
def FVal.fadd : FVal → FVal → FVal
  | .nan, _ => .nan
  | _, .nan => .nan
  | .fin a, .fin b => .fin (a + b)
  | .inf, .ninf => .nan
  | .ninf, .inf => .nan
  | .inf, _ => .inf
  | _, .inf => .inf
  | .ninf, _ => .ninf
  | _, .ninf => .ninf

/-- IEEE-style multiplication on `FVal` (NaN propagates; zero times an
infinity gives NaN). -/
def FVal.fmul : FVal → FVal → FVal
  | .nan, _ => .nan
  | _, .nan => .nan
  | .fin a, .fin b => .fin (a * b)
  | .fin a, .inf => if 0 < a then .inf else if a < 0 then .ninf else .nan
  | .inf, .fin a => if 0 < a then .inf else if a < 0 then .ninf else .nan
  | .fin a, .ninf => if 0 < a then .ninf else if a < 0 then .inf else .nan
  | .ninf, .fin a => if 0 < a then .ninf else if a < 0 then .inf else .nan
  | .inf, .inf => .inf
  | .inf, .ninf => .ninf
  | .ninf, .inf => .ninf
  | .ninf, .ninf => .inf

/-- IEEE-style division on `FVal`.  A finite numerator over zero gives
a signed infinity (NaN for `0/0`); the zero here is the `+0` produced
by exact cancellation in a tensor dot product. -/
def FVal.fdiv : FVal → FVal → FVal
  | .nan, _ => .nan
  | _, .nan => .nan
  | .fin a, .fin b =>
    if b = 0 then (if 0 < a then .inf else if a < 0 then .ninf else .nan)
    else .fin (a / b)
  | .fin _, .inf => .fin 0
  | .fin _, .ninf => .fin 0
  | .inf, .fin b => if 0 ≤ b then .inf else .ninf
  | .ninf, .fin b => if 0 ≤ b then .ninf else .inf
  | .inf, _ => .nan
  | .ninf, _ => .nan

/-- IEEE-style square root on `FVal`: NaN for negative finite inputs
and for `-inf`, `+inf` for `+inf`.  The nonnegative finite case defers
to an abstract square-root kernel `sq` (its numeric value is irrelevant
to every claim about this model). -/
def FVal.fsqrt (sq : ℚ → ℚ) : FVal → FVal
  | .fin a => if a < 0 then .nan else .fin (sq a)
  | .inf => .inf
  | .ninf => .nan
  | .nan => .nan

/-- IEEE-style strict less-than on `FVal`: every comparison involving
NaN is false, exactly the behaviour Python float comparison inherits
from IEEE-754 and the one the acceptance test at trpo.py line 378
relies on. -/
def FVal.fltB : FVal → FVal → Bool
  | .nan, _ => false
  | _, .nan => false
  | .fin a, .fin b => decide (a < b)
  | .ninf, .ninf => false
  | .ninf, _ => true
  | _, .ninf => false
  | .inf, _ => false
  | .fin _, .inf => true

instance : Add FVal := ⟨FVal.fadd⟩

instance : Mul FVal := ⟨FVal.fmul⟩

instance : Zero FVal := ⟨FVal.fin 0⟩

instance : One FVal := ⟨FVal.fin 1⟩

/-- Embeds the step-size derivation of `train` (trpo.py lines 325-334)
at float fidelity:
`line_search_max_step_size = 2 * target_kl`, then divided in place by
the curvature denominator `x · Hv(x)`, then `th.sqrt` — with no guard
of any kind on the denominator's sign. -/
def lineSearchMaxStepSizeFloat (sq : ℚ → ℚ) (targetKl : ℚ) (denom : FVal) : FVal :=
  FVal.fsqrt sq (FVal.fdiv (.fin (2 * targetKl)) denom)

/-- Counterexample to C1: at `target_kl = 1/100` and curvature
denominator `x · Hv(x) = -1` (a degenerate, negative value), the train
step's step-size computation produces NaN — the invalid
negative-square-root value the claim says is never computed.  There is
no guard in trpo.py lines 325-334: the quotient `2 * 0.01 / -1` is
negative and `th.sqrt` of it is NaN. -/
theorem trpo_c1_counterexample :
    lineSearchMaxStepSizeFloat (fun q => q) (1 / 100) (FVal.fin (-1)) = FVal.nan := by
  norm_num [lineSearchMaxStepSizeFloat, FVal.fdiv, FVal.fsqrt]

/-- C1 (amended): when the curvature denominator is negative the
computed step size is NaN, and when it is exactly zero it is `+inf` —
the code has no explicit guard.  The condition is still recoverable in
effect: because every IEEE comparison against a NaN divergence is
false, no line-search trial is accepted, so the search ends with the
parameters reassigned their exact pre-step snapshot values, the
success flag false, the pre-step objective and a divergence of `0.0`
reported, and no exception raised (the model is a total function). -/
theorem trpo_c1_degenerate_curvature_amended (sq : ℚ → ℚ) (targetKl : ℚ)
    (ht : 0 < targetKl) (d : ℚ)
    (evalKL evalObj : List (List FVal) → FVal) (preObj : FVal)
    (orig : List (List FVal)) (dir : List FVal) (β c : FVal) (maxIter : ℕ)
    (hkl : ∀ P, evalKL P = FVal.nan) :
    (d < 0 → lineSearchMaxStepSizeFloat sq targetKl (.fin d) = FVal.nan) ∧
    lineSearchMaxStepSizeFloat sq targetKl (.fin 0) = FVal.inf ∧
    lineSearch FVal.fltB evalKL evalObj (.fin targetKl) preObj orig dir β c maxIter
      = ⟨orig, false, preObj, 0⟩ := by
  refine ⟨?_, ?_, ?_⟩
  · intro hd
    have hne : d ≠ 0 := ne_of_lt hd
    have hq : (2 : ℚ) * targetKl / d < 0 :=
      div_neg_of_pos_of_neg (by positivity) hd
    simp [lineSearchMaxStepSizeFloat, FVal.fdiv, FVal.fsqrt, hne, hq]
  · have h2 : (0 : ℚ) < 2 * targetKl := by positivity
    simp [lineSearchMaxStepSizeFloat, FVal.fdiv, FVal.fsqrt, h2]
  · have hno : ∀ P, lsAcceptB FVal.fltB evalKL evalObj (.fin targetKl) preObj P = false := by
      intro P
      simp [lsAcceptB, hkl, FVal.fltB]
    simpa [lineSearch] using
      lineSearchLoop_neverAccept FVal.fltB evalKL evalObj (.fin targetKl) preObj
        orig dir β c hno maxIter 1

/-- Witness for the amended C1 at a concrete input: NaN step size from
a negative denominator, infinite step size from a zero denominator, and
reversion of the concrete parameter snapshot under an all-NaN
divergence. -/
theorem trpo_c1_witness :
    ((-1 : ℚ) < 0 → lineSearchMaxStepSizeFloat (fun q => q) (1 / 100) (.fin (-1)) = FVal.nan) ∧
    lineSearchMaxStepSizeFloat (fun q => q) (1 / 100) (.fin 0) = FVal.inf ∧
    lineSearch FVal.fltB (fun _ => FVal.nan) (fun _ => FVal.fin 0)
        (.fin (1 / 100)) (FVal.fin 0) [[FVal.fin 1, FVal.fin 2], [FVal.fin 3]]
        [FVal.fin 1, FVal.fin 1, FVal.fin 1] FVal.nan (FVal.fin (8 / 10)) 2
      = ⟨[[FVal.fin 1, FVal.fin 2], [FVal.fin 3]], false, FVal.fin 0, 0⟩ := by
  exact trpo_c1_degenerate_curvature_amended (fun q => q) (1 / 100) (by norm_num)
    (-1) (fun _ => FVal.nan) (fun _ => FVal.fin 0) (FVal.fin 0)
    [[FVal.fin 1, FVal.fin 2], [FVal.fin 3]] [FVal.fin 1, FVal.fin 1, FVal.fin 1]
    FVal.nan (FVal.fin (8 / 10)) 2 (fun _ => rfl)

/-- Dot product of two flat real vectors: `th.matmul(a, b)` /
`(a * b).sum()` for 1-D tensors. -/
noncomputable def dotList (a b : List ℝ) : ℝ :=
  (List.zipWith (fun x y => x * y) a b).sum

/-- Elementwise scaling of a flat real vector. -/
noncomputable def smulList (s : ℝ) (v : List ℝ) : List ℝ := v.map (fun x => s * x)

/-- Elementwise sum of two flat real vectors. -/
noncomputable def addList (a b : List ℝ) : List ℝ := List.zipWith (fun x y => x + y) a b

/-- Embeds `TRPO.hessian_vector_product` (trpo.py lines 430-443) at
ideal-real fidelity.  The code computes the scalar
`jacobian_vector_product = (grad_kl * vector).sum()` and returns
`flat_grad(jacobian_vector_product, params, retain_graph=...) +
self.cg_damping * vector`.  Two collaborators are external to src/:
the autograd engine and `flat_grad` (from `sb3_contrib.common.utils`).
Modelled from the spec: `flat_grad` differentiates a scalar with
respect to the actor parameter list and flattens/concatenates the
per-parameter gradients in the parameters' order; we therefore model
the injected differentiation capability as an abstract operator
`gradAt : (List ℝ → ℝ) → List ℝ → List ℝ` taking the scalar as a
function of the flattened actor parameters and the point `theta` at
which the graph is rooted, and `grad_kl`'s retained graph as the
function `gradKlFun` from flattened actor parameters to the flattened
KL gradient.  The scalar handed to `flat_grad` is then literally
`sum(grad_kl * v)` as a function of the parameters. -/
noncomputable def hessianVectorProduct (gradAt : (List ℝ → ℝ) → List ℝ → List ℝ)
    (gradKlFun : List ℝ → List ℝ) (cgDamping : ℝ) (theta : List ℝ)
    (v : List ℝ) : List ℝ :=
  let jacobianVectorProduct : List ℝ → ℝ := fun th => dotList (gradKlFun th) v
  addList (gradAt jacobianVectorProduct theta) (smulList cgDamping v)

/-- Embeds the step-size derivation of `train` (trpo.py lines 325-334)
at ideal-real fidelity, keeping the source's sequencing:
`line_search_max_step_size = 2 * self.target_kl`, then an in-place
division by `matmul(search_direction, hvp_fn(search_direction))`, then
`th.sqrt`. -/
noncomputable def lineSearchMaxStepSizeModel (targetKl : ℝ)
    (hvpFn : List ℝ → List ℝ) (searchDirection : List ℝ) : ℝ :=
  let s0 := 2 * targetKl
  let s1 := s0 / dotList searchDirection (hvpFn searchDirection)
  Real.sqrt s1

/-- The claim's formula for the maximal step length, written from the
spec's words: `sqrt(2 * target_kl / (x · Hv(x)))` with
`Hv(v) = (flattened gradient w.r.t. the actor parameters of
sum(grad_kl * v)) + cg_damping * v`. -/
noncomputable def betaMaxSpec (gradAt : (List ℝ → ℝ) → List ℝ → List ℝ)
    (gradKlFun : List ℝ → List ℝ) (cgDamping : ℝ) (theta : List ℝ)
    (targetKl : ℝ) (x : List ℝ) : ℝ :=
  Real.sqrt (2 * targetKl /
    dotList x (addList (gradAt (fun th => dotList (gradKlFun th) x) theta)
      (smulList cgDamping x)))

/-- C2: the maximal line-search step length computed by `train` equals
`sqrt(2 * target_kl / (x · Hv(x)))` where `x` is the conjugate-gradient
solution and `Hv(v)` is the flattened gradient, with respect to the
actor parameters, of the scalar `sum(grad_kl * v)`, plus
`cg_damping * v`; and `Hv(v)` has the same dimensionality as `v`
whenever the differentiation operator returns one gradient entry per
flattened parameter entry. -/
theorem trpo_c2_max_step_size (gradAt : (List ℝ → ℝ) → List ℝ → List ℝ)
    (gradKlFun : List ℝ → List ℝ) (cgDamping targetKl : ℝ) (theta x : List ℝ)
    (hlen : ∀ f : List ℝ → ℝ, (gradAt f theta).length = theta.length) :
    lineSearchMaxStepSizeModel targetKl
        (hessianVectorProduct gradAt gradKlFun cgDamping theta) x
      = betaMaxSpec gradAt gradKlFun cgDamping theta targetKl x ∧
    ∀ v : List ℝ, v.length = theta.length →
      (hessianVectorProduct gradAt gradKlFun cgDamping theta v).length = v.length := by
  constructor
  · rfl
  · intro v hv
    simp [hessianVectorProduct, addList, smulList, hlen, hv]

/-- Witness for C2 at a concrete input (identity differentiation
operator, identity KL-gradient function). -/
theorem trpo_c2_witness :
    lineSearchMaxStepSizeModel (1 / 100)
        (hessianVectorProduct (fun _ th => th) (fun th => th) (1 / 10) [1, 2]) [3, 4]
      = betaMaxSpec (fun _ th => th) (fun th => th) (1 / 10) [1, 2] (1 / 100) [3, 4] ∧
    ∀ v : List ℝ, v.length = ([1, 2] : List ℝ).length →
      (hessianVectorProduct (fun _ th => th) (fun th => th) (1 / 10) [1, 2] v).length
        = v.length := by
  exact trpo_c2_max_step_size (fun _ th => th) (fun th => th) (1 / 10) (1 / 100)
    [1, 2] [3, 4] (fun _ => rfl)

/-- Embeds trpo.py lines 276-281: under `th.no_grad`, the old policy
distribution is computed once, from the parameters as they stand before
any update of the iteration (`copy.copy` makes the bound name
independent of later recomputation of `distribution`).  `getDist` is
the external collaborator `self.policy.get_distribution`; since the
policy's parameters are the mutable state the line search writes, the
model passes them explicitly. -/
def trainOldDistribution {Obs Dist : Type} {α : Type}
    (getDist : List (List α) → Obs → Dist) (thetaZero : List (List α))
    (obs : Obs) : Dist :=
  getDist thetaZero obs

/-- Embeds the divergence evaluation of the line-search trials
(trpo.py lines 362 and 372): `kl_divergence(distribution,
old_distribution).mean()` where `distribution` is recomputed from the
current (trial) parameters and `old_distribution` is the iteration's
snapshot, never recomputed. -/
def trainDivergenceEval {Obs Dist : Type} {α : Type}
    (klDivMean : Dist → Dist → α) (getDist : List (List α) → Obs → Dist)
    (thetaZero : List (List α)) (obs : Obs) : List (List α) → α :=
  let oldDistribution := trainOldDistribution getDist thetaZero obs
  fun theta => klDivMean (getDist theta obs) oldDistribution

/-- Embeds the composed actor line-search call of `train` (lines
336-398) with the divergence evaluator built exactly as `train` builds
it: the original parameter snapshot `thetaZero` (line 339) is both the
base point of every candidate step and the point at which the old
distribution was taken (line 281, before any mutation). -/
def trainActorLineSearch {Obs Dist : Type} {α : Type} [Add α] [Mul α] [Zero α] [One α]
    (ltB : α → α → Bool) (klDivMean : Dist → Dist → α)
    (getDist : List (List α) → Obs → Dist) (evalObj : List (List α) → α)
    (targetKl preObj : α) (thetaZero : List (List α)) (obs : Obs)
    (dir : List α) (β c : α) (maxIter : ℕ) : LSResult α :=
  lineSearch ltB (trainDivergenceEval klDivMean getDist thetaZero obs) evalObj
    targetKl preObj thetaZero dir β c maxIter

/-- C8: within one train-step iteration the old-distribution snapshot
is fixed: every divergence evaluation the line search performs —
including the one at every backtracking trial — is
`klDivMean (getDist trial_params obs) snapshot` for the single
snapshot `trainOldDistribution getDist thetaZero obs` taken from the
pre-update parameters, and the whole search is literally the generic
line search run with that fixed-snapshot evaluator, so no trial can
observe a recomputed old distribution. -/
theorem trpo_c8_old_distribution_fixed {Obs Dist : Type} {α : Type}
    [Monoid α] [Add α] [Zero α]
    (ltB : α → α → Bool) (klDivMean : Dist → Dist → α)
    (getDist : List (List α) → Obs → Dist) (evalObj : List (List α) → α)
    (targetKl preObj : α) (thetaZero : List (List α)) (obs : Obs)
    (dir : List α) (β c : α) (maxIter : ℕ) :
    (∀ theta, trainDivergenceEval klDivMean getDist thetaZero obs theta
        = klDivMean (getDist theta obs) (trainOldDistribution getDist thetaZero obs)) ∧
    (∀ i : ℕ, trainDivergenceEval klDivMean getDist thetaZero obs
        (applyStepTensors ((c ^ i) * β) dir thetaZero)
        = klDivMean (getDist (applyStepTensors ((c ^ i) * β) dir thetaZero) obs)
            (trainOldDistribution getDist thetaZero obs)) ∧
    trainActorLineSearch ltB klDivMean getDist evalObj targetKl preObj thetaZero obs
        dir β c maxIter
      = lineSearch ltB
          (fun theta => klDivMean (getDist theta obs)
            (trainOldDistribution getDist thetaZero obs))
          evalObj targetKl preObj thetaZero dir β c maxIter :=
  ⟨fun _ => rfl, fun _ => rfl, rfl⟩

/-- One flattened rollout batch as `train` consumes it
(trpo.py lines 257-268): the four fields the sub-sampling rebuild
keeps (`old_values` and `returns` are dropped there and unused by the
actor update). -/
structure RolloutSamples where
  observations : List ℝ
  actions : List ℝ
  oldLogProb : List ℝ
  advantages : List ℝ

/-- Python extended slicing `l[::k]`: every `k`-th element starting at
index 0 (`k ≥ 1`; trpo.py lines 262-266 use it on each batch field). -/
def strideEvery {α : Type} (k : ℕ) : List α → List α
  | [] => []
  | a :: rest => a :: strideEvery k (rest.drop (k - 1))
termination_by l => l.length
decreasing_by
  simp only [List.length_cons, List.length_drop]
  omega

/-- Mean of a list of reals: `tensor.mean()`. -/
noncomputable def listMean (l : List ℝ) : ℝ := l.sum / (l.length : ℝ)

/-- Sample standard deviation with Bessel's correction:
`tensor.std()` (torch's default `unbiased=True` divides by `n - 1`). -/
noncomputable def listStd (l : List ℝ) : ℝ :=
  Real.sqrt ((l.map (fun x => (x - listMean l) ^ 2)).sum / ((l.length : ℝ) - 1))

/-- Embeds the advantage normalization of trpo.py line 291:
`(advantages - advantages.mean()) / (rollout_data.advantages.std() + 1e-8)`,
where at that point `advantages` and `rollout_data.advantages` are the
same (possibly already sub-sampled) tensor. -/
noncomputable def normalizeList (l : List ℝ) : List ℝ :=
  l.map (fun a => (a - listMean l) / (listStd l + 1 / 100000000))

/-- Embeds the optional sub-sampling of trpo.py lines 260-268: when
`sub_sampling_factor > 1` the batch is rebuilt with every field strided
uniformly; otherwise the batch is untouched. -/
noncomputable def trainSubSample (k : ℕ) (d : RolloutSamples) : RolloutSamples :=
  if 1 < k then
    ⟨strideEvery k d.observations, strideEvery k d.actions,
      strideEvery k d.oldLogProb, strideEvery k d.advantages⟩
  else d

/-- Embeds the advantage data path of `train` (trpo.py lines 257-291):
sub-sample first (lines 260-268), then, when normalization is enabled,
normalize the (already sub-sampled) advantages (lines 289-291). -/
noncomputable def trainAdvantages (normalizeAdvantage : Bool) (k : ℕ)
    (d : RolloutSamples) : List ℝ :=
  let rd := trainSubSample k d
  if normalizeAdvantage then normalizeList rd.advantages else rd.advantages

/-- The computation described by claim C9, written from its words:
normalization mean and standard deviation computed over the full
batch's advantages, the stride applied only afterwards. -/
noncomputable def claimAdvantagesFullThenStride (k : ℕ) (d : RolloutSamples) : List ℝ :=
  strideEvery k (normalizeList d.advantages)

/-- Concrete batch refuting C9: advantages `[0, 0, 0, 6]` with
sub-sampling factor 2. -/
noncomputable def ceSamples : RolloutSamples := ⟨[], [], [], [0, 0, 0, 6]⟩

/-- Counterexample to C9: on advantages `[0, 0, 0, 6]` with stride 2,
the code's result (stride first: strided advantages `[0, 0]`, mean 0,
std 0, so every normalized entry is 0) differs from the claim's result
(full-batch mean `3/2` and std `3`, so the first strided entry is
`(-3/2) / (3 + 1e-8) ≠ 0`): the train step does NOT normalize over the
full batch before striding. -/
theorem trpo_c9_counterexample :
    trainAdvantages true 2 ceSamples ≠ claimAdvantagesFullThenStride 2 ceSamples := by
  have hstride : strideEvery 2 ([0, 0, 0, 6] : List ℝ) = [0, 0] := by
    norm_num [strideEvery]
  have hmean0 : listMean ([0, 0] : List ℝ) = 0 := by
    norm_num [listMean]
  have hstd0 : listStd ([0, 0] : List ℝ) = 0 := by
    norm_num [listStd, hmean0, Real.sqrt_zero]
  have hlhs : trainAdvantages true 2 ceSamples = [0, 0] := by
    simp only [trainAdvantages, trainSubSample, ceSamples]
    norm_num [hstride, normalizeList, hmean0, hstd0]
  have hmean4 : listMean ([0, 0, 0, 6] : List ℝ) = 3 / 2 := by
    norm_num [listMean]
  have harg : (([0, 0, 0, 6] : List ℝ).map
        (fun x => (x - listMean [0, 0, 0, 6]) ^ 2)).sum
      / ((([0, 0, 0, 6] : List ℝ).length : ℝ) - 1) = 9 := by
    norm_num [hmean4]
  have hstd4 : listStd ([0, 0, 0, 6] : List ℝ) = 3 := by
    unfold listStd
    rw [harg, show (9 : ℝ) = 3 ^ 2 by norm_num,
      Real.sqrt_sq (by norm_num : (0 : ℝ) ≤ 3)]
  have hhead : (claimAdvantagesFullThenStride 2 ceSamples).head? =
      some ((0 - 3 / 2) / (3 + 1 / 100000000)) := by
    simp only [claimAdvantagesFullThenStride, ceSamples, normalizeList, hmean4, hstd4,
      List.map_cons, List.map_nil]
    norm_num [strideEvery]
  intro h
  rw [hlhs] at h
  rw [← h] at hhead
  simp only [List.head?_cons, Option.some_inj] at hhead
  have : (0 - 3 / 2 : ℝ) / (3 + 1 / 100000000) < 0 := by
    apply div_neg_of_neg_of_pos <;> norm_num
  rw [← hhead] at this
  exact lt_irrefl 0 this

/-- C9 (amended): when the sub-sampling factor `k` exceeds 1 and
advantage normalization is enabled, the train step applies the stride
FIRST — uniformly across all four batch fields — and computes the
normalization mean and standard deviation over the sub-sampled
advantages, not over the full batch. -/
theorem trpo_c9_stride_then_normalize (k : ℕ) (hk : 1 < k) (d : RolloutSamples) :
    trainAdvantages true k d = normalizeList (strideEvery k d.advantages) ∧
    (trainSubSample k d).observations = strideEvery k d.observations ∧
    (trainSubSample k d).actions = strideEvery k d.actions ∧
    (trainSubSample k d).oldLogProb = strideEvery k d.oldLogProb ∧
    (trainSubSample k d).advantages = strideEvery k d.advantages := by
  refine ⟨?_, ?_, ?_, ?_, ?_⟩ <;> simp [trainAdvantages, trainSubSample, hk]

/-- Witness for the amended C9 at the concrete counterexample batch. -/
theorem trpo_c9_witness :
    trainAdvantages true 2 ceSamples = normalizeList (strideEvery 2 ceSamples.advantages) ∧
    (trainSubSample 2 ceSamples).observations = strideEvery 2 ceSamples.observations ∧
    (trainSubSample 2 ceSamples).actions = strideEvery 2 ceSamples.actions ∧
    (trainSubSample 2 ceSamples).oldLogProb = strideEvery 2 ceSamples.oldLogProb ∧
    (trainSubSample 2 ceSamples).advantages = strideEvery 2 ceSamples.advantages := by
  exact trpo_c9_stride_then_normalize 2 (by norm_num) ceSamples

/-- The two exceptions the constructor fragment can raise: the
`assert` at trpo.py lines 147-150 (AssertionError) and the integer
division/modulo by zero at lines 152-153 (Python ZeroDivisionError). -/
inductive PyInitError where
  | assertionError
  | zeroDivisionError
deriving DecidableEq, Repr

/-- Embeds the validation fragment of `TRPO.__init__`
(trpo.py lines 139-161).  With an environment provided:
`buffer_size = num_envs * n_steps`; if advantage normalization is
requested, `assert buffer_size > 1` (raises on failure); then
`buffer_size // batch_size` and `buffer_size % batch_size` are
computed — in Python both raise ZeroDivisionError when
`batch_size = 0` — and a non-zero remainder only triggers
`warnings.warn` (no exception).  The returned Bool records whether
that warning was emitted; configurations are nonnegative integers as
in any sensible construction.  Without an environment the fragment
does nothing. -/
def trpoInitCheck (envProvided : Bool) (numEnvs nSteps batchSize : ℕ)
    (normalizeAdvantage : Bool) : Except PyInitError Bool :=
  if envProvided then
    let bufferSize := numEnvs * nSteps
    if normalizeAdvantage && !(decide (1 < bufferSize)) then
      .error .assertionError
    else if batchSize = 0 then
      .error .zeroDivisionError
    else
      .ok (decide (0 < bufferSize % batchSize))
  else
    .ok false

/-- Counterexample to C10: with an environment provided,
`num_envs = 1`, `n_steps = 2`, `batch_size = 0` and advantage
normalization DISABLED, construction still raises (Python
ZeroDivisionError at `buffer_size // batch_size`, trpo.py line 152),
refuting the claimed "raises if and only if advantage normalization is
enabled and `n_steps * n_envs ≤ 1`" — and refuting that a
non-dividing minibatch size (0 divides nothing positive) is surfaced
only as a warning. -/
theorem trpo_c10_counterexample :
    trpoInitCheck true 1 2 0 false = Except.error PyInitError.zeroDivisionError ∧
    ¬ (false = true ∧ 1 * 2 ≤ 1) := by
  constructor
  · rfl
  · simp

/-- C10 (amended): given an environment, construction raises if and
only if (advantage normalization is enabled and the rollout buffer
size `n_steps * n_envs` is not greater than 1) OR the minibatch size
is zero; for a nonzero minibatch size that does not divide the buffer
size (and a configuration passing the normalization check),
construction succeeds and only emits the truncated-minibatch
warning. -/
theorem trpo_c10_construction_validation (numEnvs nSteps batchSize : ℕ)
    (normAdv : Bool) :
    ((trpoInitCheck true numEnvs nSteps batchSize normAdv).isOk = false
      ↔ ((normAdv = true ∧ numEnvs * nSteps ≤ 1) ∨ batchSize = 0)) ∧
    (batchSize ≠ 0 → ¬(normAdv = true ∧ numEnvs * nSteps ≤ 1) →
      0 < (numEnvs * nSteps) % batchSize →
      trpoInitCheck true numEnvs nSteps batchSize normAdv = .ok true) := by
  constructor
  · cases normAdv with
    | false =>
      by_cases hz : batchSize = 0 <;>
        simp [trpoInitCheck, hz, Except.isOk, Except.toBool]
    | true =>
      by_cases hb : 1 < numEnvs * nSteps
      · have hble : ¬(numEnvs * nSteps ≤ 1) := by omega
        by_cases hz : batchSize = 0 <;>
          simp [trpoInitCheck, hb, hz, hble, Except.isOk, Except.toBool]
      · have hble : numEnvs * nSteps ≤ 1 := by omega
        simp [trpoInitCheck, hb, hble, Except.isOk, Except.toBool]
  · intro hz hn hmod
    cases normAdv with
    | false => simp [trpoInitCheck, hz, hmod]
    | true =>
      have hb : 1 < numEnvs * nSteps := by
        by_contra hc
        exact hn ⟨rfl, by omega⟩
      simp [trpoInitCheck, hb, hz, hmod]

/-- Witness for the amended C10: buffer size 5, minibatch size 3 (a
non-divisor), normalization disabled — construction succeeds with the
warning. -/
theorem trpo_c10_witness :
    trpoInitCheck true 1 5 3 false = Except.ok true := by
  exact (trpo_c10_construction_validation 1 5 3 false).2 (by decide) (by simp) (by decide)

/-- A policy parameter as the critic update sees it: its current data
(collapsed to one exact scalar; the claim is about identity of values,
not their shape) and its `.grad` slot (`none` models PyTorch
`grad = None`). -/
structure CriticParam where
  value : ℚ
  grad : Option ℚ
deriving DecidableEq, Repr

/-- Embeds one critic minibatch update (trpo.py lines 404-414) over
three parallel lists: for each policy parameter, a flag for
membership in `actor_params` (the same objects the line search just
wrote), the gradient `value_loss.backward()` deposits for it
(`none` when the backward pass does not touch it), and the parameter
itself.  The steps, in source order: `optimizer.zero_grad()` (line
408) clears every grad slot, `backward()` (line 409) writes the fresh
gradients (accumulation onto a cleared slot is just the fresh value),
lines 412-413 reset `param.grad = None` for every actor parameter,
and `optimizer.step()` (line 414) updates exactly the parameters whose
grad is present — torch optimizers skip parameters with `grad = None` —
through the abstract per-parameter rule `stepRule`.  In the program the
three lists always have equal length (they range over the same
parameter collection); on a length mismatch the model leaves the
remaining parameters untouched. -/
def criticMinibatchUpdate (stepRule : ℚ → ℚ → ℚ) :
    List Bool → List (Option ℚ) → List CriticParam → List CriticParam
  | isActor :: flags, g :: gs, p :: ps =>
    let gradAfterRemoval : Option ℚ := if isActor then none else g
    (match gradAfterRemoval with
      | none => { p with grad := none }
      | some gr => ⟨stepRule p.value gr, some gr⟩)
      :: criticMinibatchUpdate stepRule flags gs ps
  | _, _, ps => ps

/-- Embeds the critic update loop (trpo.py lines 400-414): the
minibatch updates of all `n_critic_updates` passes, flattened into one
sequence of `t` steps; `gradsFor` gives the backward gradients of step
`t` as a function of the current parameter values (the minibatch data
and the loss landscape are folded into it), `stepRule` the optimizer's
per-parameter update at step `t` (its internal state folded in). -/
def criticUpdates (stepRule : ℕ → ℚ → ℚ → ℚ)
    (gradsFor : ℕ → List CriticParam → List (Option ℚ)) (flags : List Bool) :
    ℕ → List CriticParam → List CriticParam
  | 0, ps => ps
  | t + 1, ps =>
    criticUpdates stepRule gradsFor flags t
      (criticMinibatchUpdate (stepRule t) flags (gradsFor t ps) ps)

/-- One critic minibatch never changes the value of a parameter
flagged as an actor parameter. -/
theorem criticMinibatchUpdate_actor_value (stepRule : ℚ → ℚ → ℚ) :
    ∀ (flags : List Bool) (gs : List (Option ℚ)) (ps : List CriticParam) (i : ℕ),
      flags[i]? = some true →
      ((criticMinibatchUpdate stepRule flags gs ps)[i]?).map CriticParam.value
        = (ps[i]?).map CriticParam.value := by
  intro flags
  induction flags with
  | nil => intro gs ps i hi; simp at hi
  | cons f fs ih =>
    intro gs ps i hi
    cases gs with
    | nil => rfl
    | cons g gs2 =>
      cases ps with
      | nil => rfl
      | cons p ps2 =>
        cases i with
        | zero =>
          simp only [List.getElem?_cons_zero, Option.some_inj] at hi
          subst hi
          simp [criticMinibatchUpdate]
        | succ n =>
          simp only [List.getElem?_cons_succ] at hi
          simp only [criticMinibatchUpdate, List.getElem?_cons_succ]
          exact ih gs2 ps2 n hi

/-- C5: after every critic update step (hence after each of the
`n_critic_updates` passes over minibatches), every parameter flagged
as an actor parameter holds exactly the value it had immediately after
the actor step resolved — the gradients the critic's backward pass
deposits into actor parameters are reset to `None` before the critic
optimizer step (trpo.py lines 410-413), and the optimizer skips
parameters without a gradient, so the critic update never modifies
actor parameters, for every gradient oracle and every optimizer
update rule. -/
theorem trpo_c5_critic_never_touches_actor (stepRule : ℕ → ℚ → ℚ → ℚ)
    (gradsFor : ℕ → List CriticParam → List (Option ℚ)) (flags : List Bool)
    (i : ℕ) (hi : flags[i]? = some true) :
    ∀ (t : ℕ) (ps : List CriticParam),
      ((criticUpdates stepRule gradsFor flags t ps)[i]?).map CriticParam.value
        = (ps[i]?).map CriticParam.value := by
  intro t
  induction t with
  | zero => intro ps; rfl
  | succ n ih =>
    intro ps
    calc ((criticUpdates stepRule gradsFor flags (n + 1) ps)[i]?).map CriticParam.value
        = ((criticMinibatchUpdate (stepRule n) flags (gradsFor n ps) ps)[i]?).map
            CriticParam.value := ih _
      _ = (ps[i]?).map CriticParam.value :=
          criticMinibatchUpdate_actor_value (stepRule n) flags (gradsFor n ps) ps i hi

/-- Witness for C5 at a concrete input: two parameters, the first an
actor parameter, three critic steps with gradients everywhere and an
additive optimizer rule; the actor parameter's value is untouched. -/
theorem trpo_c5_witness :
    ((criticUpdates (fun _ v g => v + g) (fun _ _ => [some 1, some 1]) [true, false] 3
        [⟨5, none⟩, ⟨7, none⟩])[0]?).map CriticParam.value
      = (([⟨5, none⟩, ⟨7, none⟩] : List CriticParam)[0]?).map CriticParam.value := by
  exact trpo_c5_critic_never_touches_actor (fun _ v g => v + g)
    (fun _ _ => [some 1, some 1]) [true, false] 0 (by decide) 3
    [⟨5, none⟩, ⟨7, none⟩]
